import Mathlib

/-!
Verification development for the World Bank spatial monitor
(src/monitor_agent.py and src/main.py).

The Python code is shallowly embedded: the persisted JSON state files are
modelled as ordered association lists (the exact behaviour of a Python
dict: insertion order kept, updating a key replaces the value in place),
the network is modelled as explicit functions describing the outcome of
each outbound call, and the side-effecting send/persist operations are
modelled by returning the resulting state.
-/

set_option maxHeartbeats 1000000

/-! ## Configuration constants (monitor_agent.py lines 79-85, main.py lines 223-228) -/

def MAX_RETRIES : Nat := 3

def RETRY_BACKOFF_SECONDS : Nat := 3

def NIGERIA_COUNTRY_CODE : String := "NG"

/-! ## Python dict model

A persisted state map (id -> last-update marker) is a Python dict of
strings.  We model it as an ordered association list; dictGet is d.get(k)
and dictInsert is d[k] = v (replace in place if the key is present,
append otherwise, exactly as a Python dict behaves). -/

abbrev StateMap := List (String × String)

def dictGet : StateMap → String → Option String
  | [], _ => none
  | (k1, v) :: rest, k => if k1 = k then some v else dictGet rest k

def dictInsert : StateMap → String → String → StateMap
  | [], k, v => [(k, v)]
  | (k1, v1) :: rest, k, v =>
    if k1 = k then (k, v) :: rest else (k1, v1) :: dictInsert rest k v

theorem dictGet_dictInsert_self (d : StateMap) (k v : String) :
    dictGet (dictInsert d k v) k = some v := by
  induction d with
  | nil => simp [dictGet, dictInsert]
  | cons hd tl ih =>
    obtain ⟨k1, v1⟩ := hd
    by_cases h : k1 = k <;> simp [dictGet, dictInsert, h, ih]

theorem dictGet_dictInsert_ne (d : StateMap) (k v k2 : String) (h : k2 ≠ k) :
    dictGet (dictInsert d k v) k2 = dictGet d k2 := by
  have hne : k ≠ k2 := Ne.symm h
  induction d with
  | nil => simp [dictGet, dictInsert, hne]
  | cons hd tl ih =>
    obtain ⟨k1, v1⟩ := hd
    by_cases h1 : k1 = k
    · subst h1
      simp [dictGet, dictInsert, hne]
    · by_cases h2 : k1 = k2 <;> simp [dictGet, dictInsert, h1, h2, h, ih]

/-! ## Records

A fetched project record, reduced to the fields the monitor core reads:

  * id          models str(project.get("id") or "").strip()
                (an absent or null id becomes the empty string);
  * marker      models get_project_last_update(project), that is
                project.get("p2a_updated_date") or "" coerced to a string
                (monitor_agent.py lines 506-515);
  * countrycode models project.get("countrycode"): the field may be
                absent/null, present but not a list, or a list of
                country-code strings (used by the fetch adapters). -/

inductive CCVal where
  | missing
  | nonList
  | codes (cs : List String)
  deriving DecidableEq

structure Project where
  id : String
  marker : String
  countrycode : CCVal
  deriving DecidableEq

/-! ## Diff-and-notify loop (monitor_agent.py lines 1414-1439, main.py lines 785-810)

The loop iterates over the keyword-matching records.  For each record it
extracts the id (skipping the record when empty), compares the current
marker with the one stored in the stream state, optionally sends an alert
(send is the outcome of send_project_alert_embed as a function of the
record and the is_update flag), and commits the marker only when the send
reports success, incrementing the alert counter. -/

def record_action (st : StateMap) (r : Project) : Option Bool :=
  let current_update := r.marker
  let previous_update := dictGet st r.id
  if previous_update.isSome ∧ previous_update = some current_update then
    none
  else
    some (decide (previous_update.isSome ∧ previous_update ≠ some current_update))

def process_record (send : Project → Bool → Bool) (st : StateMap) (r : Project) :
    StateMap × Nat :=
  if r.id = "" then (st, 0)
  else
    match record_action st r with
    | none => (st, 0)
    | some is_update =>
      if send r is_update then (dictInsert st r.id r.marker, 1) else (st, 0)

def run_stream (send : Project → Bool → Bool) : StateMap → List Project → StateMap × Nat
  | st, [] => (st, 0)
  | st, r :: rest =>
    let step := process_record send st r
    let tail := run_stream send step.1 rest
    (tail.1, step.2 + tail.2)

/-- Characterization of record_action by the looked-up previous marker. -/
theorem record_action_eq (st : StateMap) (r : Project) :
    record_action st r =
      match dictGet st r.id with
      | none => some false
      | some m => if m = r.marker then none else some true := by
  unfold record_action
  cases h : dictGet st r.id with
  | none => simp
  | some m => by_cases hm : m = r.marker <;> simp [hm]

/-- Processing a record never touches a state entry other than the record's own id. -/
theorem process_record_frame (send : Project → Bool → Bool) (st : StateMap)
    (r : Project) (k : String) (h : k ≠ r.id) :
    dictGet (process_record send st r).1 k = dictGet st k := by
  unfold process_record
  by_cases hid : r.id = ""
  · simp [hid]
  · cases ha : record_action st r with
    | none => simp [hid, ha]
    | some u =>
      by_cases hs : send r u <;>
        simp [hid, ha, hs, dictGet_dictInsert_ne st r.id r.marker k h]

/-- Running the loop never touches a state entry whose key is not the id of
some processed record. -/
theorem run_stream_frame (send : Project → Bool → Bool) (recs : List Project) :
    ∀ (st : StateMap) (k : String), (∀ r ∈ recs, r.id ≠ k) →
      dictGet (run_stream send st recs).1 k = dictGet st k := by
  induction recs with
  | nil => intro st k _; simp [run_stream]
  | cons r rest ih =>
    intro st k hk
    have hr : r.id ≠ k := hk r (by simp)
    have hrest : ∀ x ∈ rest, x.id ≠ k := fun x hx => hk x (by simp [hx])
    simp only [run_stream]
    rw [ih _ _ hrest, process_record_frame send st r k (Ne.symm hr)]

/-- If every record is already settled in a state (processing it changes
nothing and raises no alert), the whole loop leaves the state unchanged and
counts zero alerts. -/
theorem run_stream_settled (send : Project → Bool → Bool) (recs : List Project) :
    ∀ st : StateMap, (∀ r ∈ recs, process_record send st r = (st, 0)) →
      run_stream send st recs = (st, 0) := by
  induction recs with
  | nil => intro st _; simp [run_stream]
  | cons r rest ih =>
    intro st h
    have hr := h r (by simp)
    have hrest := ih st (fun x hx => h x (by simp [hx]))
    simp [run_stream, hr, hrest]

/-- If no later record in the batch shares the head record's id, the head
record is settled in the state produced by the rest of the pass: it is
either committed at its current marker, or its (deterministic) send fails
again without touching the state. -/
theorem process_record_settled_after (send : Project → Bool → Bool) (st : StateMap)
    (r : Project) (rest : List Project) (hothers : ∀ y ∈ rest, y.id ≠ r.id) :
    process_record send (run_stream send (process_record send st r).1 rest).1 r
      = ((run_stream send (process_record send st r).1 rest).1, 0) := by
  by_cases hid : r.id = ""
  · simp [process_record, hid]
  · have hframe := run_stream_frame send rest (process_record send st r).1 r.id hothers
    cases hprev : dictGet st r.id with
    | none =>
      by_cases hsend : send r false
      · have hstep : process_record send st r = (dictInsert st r.id r.marker, 1) := by
          simp [process_record, hid, record_action_eq, hprev, hsend]
        rw [hstep] at hframe ⊢
        simp only at hframe
        rw [dictGet_dictInsert_self] at hframe
        simp [process_record, hid, record_action_eq, hframe]
      · have hstep : process_record send st r = (st, 0) := by
          simp [process_record, hid, record_action_eq, hprev, hsend]
        rw [hstep] at hframe ⊢
        simp only at hframe
        rw [hprev] at hframe
        simp [process_record, hid, record_action_eq, hframe, hsend]
    | some m =>
      by_cases hm : m = r.marker
      · have hstep : process_record send st r = (st, 0) := by
          simp [process_record, hid, record_action_eq, hprev, hm]
        rw [hstep] at hframe ⊢
        simp only at hframe
        rw [hprev] at hframe
        simp [process_record, hid, record_action_eq, hframe, hm]
      · by_cases hsend : send r true
        · have hstep : process_record send st r = (dictInsert st r.id r.marker, 1) := by
            simp [process_record, hid, record_action_eq, hprev, hm, hsend]
          rw [hstep] at hframe ⊢
          simp only at hframe
          rw [dictGet_dictInsert_self] at hframe
          simp [process_record, hid, record_action_eq, hframe]
        · have hstep : process_record send st r = (st, 0) := by
            simp [process_record, hid, record_action_eq, hprev, hm, hsend]
          rw [hstep] at hframe ⊢
          simp only at hframe
          rw [hprev] at hframe
          simp [process_record, hid, record_action_eq, hframe, hm, hsend]

/-- After one pass of the loop over records with pairwise-distinct non-empty
ids, every record is settled in the resulting state. -/
theorem run_stream_stabilizes (send : Project → Bool → Bool) (recs : List Project) :
    ∀ st : StateMap,
      ((recs.filter (fun r => r.id != "")).map Project.id).Nodup →
      ∀ r ∈ recs,
        process_record send (run_stream send st recs).1 r
          = ((run_stream send st recs).1, 0) := by
  induction recs with
  | nil => intro st _ r hr; simp at hr
  | cons a rest ih =>
    intro st hnodup x hx
    have hsub : ((rest.filter (fun r => r.id != "")).map Project.id).Nodup := by
      refine List.Nodup.sublist ?_ hnodup
      exact List.Sublist.map _ (List.Sublist.filter _ (List.sublist_cons_self a rest))
    simp only [run_stream]
    rcases List.mem_cons.mp hx with rfl | hx
    · by_cases hid : x.id = ""
      · simp [process_record, hid]
      · have hothers : ∀ y ∈ rest, y.id ≠ x.id := by
          intro y hy
          by_cases hyid : y.id = ""
          · rw [hyid]; exact fun hc => hid hc.symm
          · intro hc
            have hcons :
                (((x :: rest).filter (fun z => z.id != "")).map Project.id)
                  = x.id :: ((rest.filter (fun z => z.id != "")).map Project.id) := by
              simp [List.filter_cons, hid]
            rw [hcons] at hnodup
            exact (List.nodup_cons.mp hnodup).1
              (List.mem_map.mpr ⟨y, List.mem_filter.mpr ⟨hy, by simp [hyid]⟩, hc⟩)
        exact process_record_settled_after send st x rest hothers
    · exact ih (process_record send st a).1 hsub x hx

/-! ## Claim C1: commit-on-success for a single record of the loop -/

/-- C1: for a keyword-matching record with a non-empty id processed by the
diff-and-notify loop: if the record's id is in the stream state with a
marker equal to the record's current marker, no alert is counted and the
state is unchanged; otherwise an alert send is attempted (the loop body
reaches the send with some classification), the state entry for the id
equals the current marker after the step if and only if the send succeeds,
and on send failure the state is left untouched, so the record is
re-evaluated identically on the next run. -/
theorem process_record_commit_on_success (send : Project → Bool → Bool)
    (st : StateMap) (r : Project) (hid : r.id ≠ "") :
    (dictGet st r.id = some r.marker → process_record send st r = (st, 0))
  ∧ (dictGet st r.id ≠ some r.marker →
      ∃ u, record_action st r = some u
        ∧ (send r u = true →
            process_record send st r = (dictInsert st r.id r.marker, 1))
        ∧ (send r u = false → process_record send st r = (st, 0))
        ∧ (dictGet (process_record send st r).1 r.id = some r.marker
             ↔ send r u = true)) := by
  constructor
  · intro heq
    simp [process_record, hid, record_action_eq, heq]
  · intro hne
    cases hprev : dictGet st r.id with
    | none =>
      refine ⟨false, by simp [record_action_eq, hprev], ?_, ?_, ?_⟩
      · intro hs; simp [process_record, hid, record_action_eq, hprev, hs]
      · intro hs; simp [process_record, hid, record_action_eq, hprev, hs]
      · by_cases hs : send r false
        · simp [process_record, hid, record_action_eq, hprev, hs,
            dictGet_dictInsert_self]
        · simp [process_record, hid, record_action_eq, hprev, hs]
    | some m =>
      have hm : m ≠ r.marker := by
        intro hc; exact hne (by rw [hprev, hc])
      refine ⟨true, by simp [record_action_eq, hprev, hm], ?_, ?_, ?_⟩
      · intro hs; simp [process_record, hid, record_action_eq, hprev, hm, hs]
      · intro hs; simp [process_record, hid, record_action_eq, hprev, hm, hs]
      · by_cases hs : send r true
        · simp [process_record, hid, record_action_eq, hprev, hm, hs,
            dictGet_dictInsert_self]
        · simp [process_record, hid, record_action_eq, hprev, hm, hs]

def send_ok_c1 : Project → Bool → Bool := fun _ _ => true

def rec_c1 : Project := ⟨"P100", "2024-01-01", CCVal.codes ["NG"]⟩

/-- Witness for C1 at a concrete record, state and send function. -/
theorem process_record_commit_on_success_witness :
    process_record send_ok_c1 [("P200", "x")] rec_c1
      = ([("P200", "x"), ("P100", "2024-01-01")], 1) := by
  have h := process_record_commit_on_success send_ok_c1 [("P200", "x")] rec_c1
    (by decide)
  obtain ⟨u, hu, hts, _, _⟩ := h.2 (by decide)
  have hu' : u = false := by
    have : record_action [("P200", "x")] rec_c1 = some false := by decide
    rw [this] at hu; exact (Option.some.injEq _ _ ▸ hu.symm)
  subst hu'
  have := hts (by decide)
  rw [this]
  decide

/-! ## Claim C2: idempotence of the diff-and-notify pass -/

def send_all_c2 : Project → Bool → Bool := fun _ _ => true

def recs_dup_c2 : List Project :=
  [⟨"A", "m1", CCVal.codes ["NG"]⟩, ⟨"A", "m2", CCVal.codes ["NG"]⟩]

/-- C2 counterexample: when the fetch result contains two records with the
same id but different markers (possible across pages), the second pass over
the unchanged fetch result raises two further alerts, not zero: each pass
re-commits marker m1 then m2 for id A, so both records always look changed. -/
theorem run_stream_rerun_counterexample :
    (run_stream send_all_c2 (run_stream send_all_c2 [] recs_dup_c2).1 recs_dup_c2).2 = 2
    ∧ (run_stream send_all_c2 (run_stream send_all_c2 [] recs_dup_c2).1 recs_dup_c2).2
        ≠ 0 := by
  constructor
  · decide
  · decide

/-- C2 (amended): provided no two records of the fetch result share the same
non-empty id, running the diff-and-notify pass twice in a row from any
starting state yields zero alerts on the second pass and leaves the state
produced by the first pass unchanged. -/
theorem run_stream_idempotent (send : Project → Bool → Bool) (st : StateMap)
    (recs : List Project)
    (hnodup : ((recs.filter (fun r => r.id != "")).map Project.id).Nodup) :
    run_stream send (run_stream send st recs).1 recs
      = ((run_stream send st recs).1, 0) :=
  run_stream_settled send recs (run_stream send st recs).1
    (run_stream_stabilizes send recs st hnodup)

def send_c2w : Project → Bool → Bool := fun _ _ => true

def recs_c2w : List Project :=
  [⟨"P100", "2024-01-01", CCVal.codes ["NG"]⟩, ⟨"P200", "", CCVal.codes ["NG"]⟩]

/-- Witness for the amended C2 at a concrete batch with distinct ids. -/
theorem run_stream_idempotent_witness :
    run_stream send_c2w (run_stream send_c2w [] recs_c2w).1 recs_c2w
      = ((run_stream send_c2w [] recs_c2w).1, 0) :=
  run_stream_idempotent send_c2w [] recs_c2w (by decide)

/-! ## Claim C3: new-vs-update classification -/

/-- C3: for a keyword-matching record with a non-empty id, the loop
classifies the alert as new (is_update = false) whenever the id is absent
from the stream state, regardless of the marker value (including the empty
marker); as an update (is_update = true) whenever the id is present with a
differing marker; and produces no alert when the id is present with an
equal marker. -/
theorem record_classification_spec (st : StateMap) (r : Project)
    (hid : r.id ≠ "") :
    (dictGet st r.id = none → record_action st r = some false)
  ∧ (∀ m, dictGet st r.id = some m → m ≠ r.marker → record_action st r = some true)
  ∧ (dictGet st r.id = some r.marker →
      record_action st r = none
      ∧ ∀ send, process_record send st r = (st, 0)) := by
  refine ⟨?_, ?_, ?_⟩
  · intro h; simp [record_action_eq, h]
  · intro m hm hne; simp [record_action_eq, hm, hne]
  · intro h
    refine ⟨by simp [record_action_eq, h], fun send => ?_⟩
    simp [process_record, hid, record_action_eq, h]

/-- Witness for C3: a record with the empty marker and an id absent from
the state is classified as new; present-and-equal produces no action. -/
theorem record_classification_spec_witness :
    record_action [] (⟨"P1", "", CCVal.missing⟩ : Project) = some false
    ∧ record_action [("P1", "")] (⟨"P1", "", CCVal.missing⟩ : Project) = none := by
  constructor
  · exact (record_classification_spec [] ⟨"P1", "", CCVal.missing⟩ (by decide)).1
      (by decide)
  · exact ((record_classification_spec [("P1", "")] ⟨"P1", "", CCVal.missing⟩
      (by decide)).2.2 (by decide)).1

/-! ## Claim C10: frame property of the loop body -/

/-- C10: processing a single record mutates at most the state entry whose
key is the record's own id: the lookup of any other key is unchanged, and a
record with an empty (or absent, normalized to empty) id leaves the whole
state untouched. -/
theorem process_record_frame_spec (send : Project → Bool → Bool)
    (st : StateMap) (r : Project) :
    (∀ k, k ≠ r.id → dictGet (process_record send st r).1 k = dictGet st k)
  ∧ (r.id = "" → (process_record send st r).1 = st) := by
  refine ⟨fun k hk => process_record_frame send st r k hk, fun h => ?_⟩
  simp [process_record, h]

/-- Witness for C10 at a concrete record and state. -/
theorem process_record_frame_spec_witness :
    dictGet (process_record (fun _ _ => true) [("B", "y")]
      (⟨"A", "m", CCVal.missing⟩ : Project)).1 "B" = some "y" := by
  have h := (process_record_frame_spec (fun _ _ => true) [("B", "y")]
    ⟨"A", "m", CCVal.missing⟩).1 "B" (by decide)
  rw [h]; decide

/-! ## Keyword matcher (monitor_agent.py lines 328-337, main.py lines 471-485)

Python's substring operator s1 in s2 is modelled on character lists:
contains_sub needle haystack is true when needle occurs contiguously
(possibly mid-word) in haystack.  str.lower() is modelled as the
per-character lowercase map (the keywords and extracted text are ASCII). -/

def contains_sub (needle : List Char) : List Char → Bool
  | [] => needle.isEmpty
  | c :: rest => needle.isPrefixOf (c :: rest) || contains_sub needle rest

def py_lower (s : String) : String := String.mk (s.data.map Char.toLower)

def py_in (needle haystack : String) : Bool :=
  contains_sub needle.data haystack.data

/-- The shared matching primitive text_matches_keywords(text, keywords):
empty text is always False; otherwise any keyword whose lower-cased form is
a substring of the lower-cased text matches (main.py inlines the identical
test in project_matches_keywords). -/
def text_matches_keywords (text : String) (keywords : List String) : Bool :=
  if text = "" then false
  else keywords.any (fun kw => py_in (py_lower kw) (py_lower text))

theorem contains_sub_correct (needle : List Char) :
    ∀ haystack : List Char,
      contains_sub needle haystack = true ↔ needle <:+: haystack := by
  intro haystack
  induction haystack with
  | nil => simp [contains_sub, List.isEmpty_iff]
  | cons c rest ih =>
    simp only [contains_sub, Bool.or_eq_true, ih, List.isPrefixOf_iff_prefix]
    exact (List.infix_cons_iff).symm

/-- C6: the keyword matcher returns true exactly when the text is non-empty
and some keyword, lower-cased, occurs as a possibly mid-word, unanchored
substring of the lower-cased text (the empty text always yields false, as
the code short-circuits before any substring test); in particular "GIS"
matches inside "the logistics team" and does not match "no relevant terms". -/
theorem text_matches_keywords_spec :
    (∀ (text : String) (keywords : List String),
        text_matches_keywords text keywords = true
          ↔ text ≠ ""
            ∧ ∃ kw ∈ keywords, (py_lower kw).data <:+: (py_lower text).data)
  ∧ text_matches_keywords "the logistics team" ["GIS"] = true
  ∧ text_matches_keywords "no relevant terms" ["GIS"] = false
  ∧ ∀ keywords : List String, text_matches_keywords "" keywords = false := by
  refine ⟨?_, by decide, by decide, fun keywords => by simp [text_matches_keywords]⟩
  intro text keywords
  unfold text_matches_keywords py_in
  by_cases htext : text = ""
  · simp [htext]
  · simp only [htext, if_false, List.any_eq_true, ne_eq, not_false_iff, true_and]
    constructor
    · rintro ⟨kw, hkw, hsub⟩
      exact ⟨kw, hkw, (contains_sub_correct _ _).mp hsub⟩
    · rintro ⟨kw, hkw, hsub⟩
      exact ⟨kw, hkw, (contains_sub_correct _ _).mpr hsub⟩

/-- Witness for C6: a concrete match derived through the specification. -/
theorem text_matches_keywords_spec_witness :
    text_matches_keywords "this project uses gis tools" ["GIS"] = true := by
  refine (text_matches_keywords_spec.1 _ _).mpr ⟨by decide, "GIS", by simp, ?_⟩
  exact (contains_sub_correct _ _).mp (by decide)

/-! ## HTTP retry primitives (monitor_agent.py lines 239-325, main.py lines 231-318)

get_with_retries and post_with_retries share the identical retry loop and
differ only in the underlying HTTP verb; the network is abstracted as
net : attempt number -> outcome, where none models a requests.RequestException
(transport failure) and some response models any received HTTP response,
whatever its status code.  The result triple is
(returned response or None, list of sleeps performed, attempts made). -/

structure HttpResponse where
  status : Nat
  body : String
  deriving DecidableEq

def request_with_retries_from (net : Nat → Option HttpResponse)
    (max_retries : Nat) (attempt : Nat) : Option HttpResponse × List Nat × Nat :=
  if h : attempt ≤ max_retries then
    match net attempt with
    | some response => (some response, [], 1)
    | none =>
      if h2 : attempt = max_retries then
        (none, [], 1)
      else
        let rest := request_with_retries_from net max_retries (attempt + 1)
        (rest.1, RETRY_BACKOFF_SECONDS * attempt :: rest.2.1, rest.2.2 + 1)
  else
    (none, [], 0)
  termination_by max_retries + 1 - attempt
  decreasing_by omega

def get_with_retries (net : Nat → Option HttpResponse) :
    Option HttpResponse × List Nat × Nat :=
  request_with_retries_from net MAX_RETRIES 1

def post_with_retries (net : Nat → Option HttpResponse) :
    Option HttpResponse × List Nat × Nat :=
  request_with_retries_from net MAX_RETRIES 1

theorem request_with_retries_from_unfold (net : Nat → Option HttpResponse)
    (max_retries attempt : Nat) :
    request_with_retries_from net max_retries attempt =
      if attempt ≤ max_retries then
        match net attempt with
        | some response => (some response, [], 1)
        | none =>
          if attempt = max_retries then
            (none, [], 1)
          else
            let rest := request_with_retries_from net max_retries (attempt + 1)
            (rest.1, RETRY_BACKOFF_SECONDS * attempt :: rest.2.1, rest.2.2 + 1)
      else
        (none, [], 0) := by
  rw [request_with_retries_from]
  simp

/-- C4: the retrying HTTP primitives make at most MAX_RETRIES = 3 attempts;
they return None only when every attempt raises a transport-level
exception; any response actually received on some attempt — whatever its
status code — is returned immediately with no further attempt; between
failed attempts they sleep RETRY_BACKOFF_SECONDS times the attempt number
(3s then 6s), with no sleep after the final attempt; and post_with_retries
has the identical retry behaviour. -/
theorem retry_primitives_spec (net : Nat → Option HttpResponse) :
    (get_with_retries net).2.2 ≤ MAX_RETRIES
  ∧ ((get_with_retries net).1 = none
      ↔ ∀ a, 1 ≤ a → a ≤ MAX_RETRIES → net a = none)
  ∧ (∀ a r, 1 ≤ a → a ≤ MAX_RETRIES → (∀ b, 1 ≤ b → b < a → net b = none) →
      net a = some r →
      (get_with_retries net).1 = some r
      ∧ (get_with_retries net).2.2 = a
      ∧ (get_with_retries net).2.1
          = (List.range (a - 1)).map (fun i => RETRY_BACKOFF_SECONDS * (i + 1)))
  ∧ ((∀ a, 1 ≤ a → a ≤ MAX_RETRIES → net a = none) →
      (get_with_retries net).2.1
        = (List.range (MAX_RETRIES - 1)).map (fun i => RETRY_BACKOFF_SECONDS * (i + 1)))
  ∧ post_with_retries net = get_with_retries net := by
  cases hn1 : net 1 with
  | some r1 =>
    have e : get_with_retries net = (some r1, [], 1) := by
      simp [get_with_retries, MAX_RETRIES, request_with_retries_from_unfold, hn1]
    refine ⟨by rw [e]; simp [MAX_RETRIES], ?_, ?_, ?_, rfl⟩
    · constructor
      · intro h; rw [e] at h; exact absurd h (by simp)
      · intro h; exact absurd hn1 (by rw [h 1 (by omega) (by simp [MAX_RETRIES])]; simp)
    · intro a r ha1 ha3 hb hnet
      rcases Nat.lt_or_ge 1 a with hlt | hge
      · exact absurd hn1 (by rw [hb 1 (by omega) hlt]; simp)
      · have haeq : a = 1 := by omega
        subst haeq
        rw [hn1] at hnet
        rw [e]
        exact ⟨by rw [hnet], rfl, by simp⟩
    · intro h
      exact absurd hn1 (by rw [h 1 (by omega) (by simp [MAX_RETRIES])]; simp)
  | none =>
    cases hn2 : net 2 with
    | some r2 =>
      have e : get_with_retries net = (some r2, [3], 2) := by
        simp [get_with_retries, MAX_RETRIES, RETRY_BACKOFF_SECONDS,
          request_with_retries_from_unfold, hn1, hn2]
      refine ⟨by rw [e]; simp [MAX_RETRIES], ?_, ?_, ?_, rfl⟩
      · constructor
        · intro h; rw [e] at h; exact absurd h (by simp)
        · intro h; exact absurd hn2 (by rw [h 2 (by omega) (by simp [MAX_RETRIES])]; simp)
      · intro a r ha1 ha3 hb hnet
        rcases Nat.lt_or_ge 2 a with hlt | hge
        · exact absurd hn2 (by rw [hb 2 (by omega) hlt]; simp)
        · have haeq : a = 1 ∨ a = 2 := by omega
          rcases haeq with rfl | rfl
          · rw [hn1] at hnet; exact absurd hnet (by simp)
          · rw [hn2] at hnet
            rw [e]
            refine ⟨by rw [hnet], rfl, ?_⟩
            simp [List.range_succ, RETRY_BACKOFF_SECONDS]
      · intro h
        exact absurd hn2 (by rw [h 2 (by omega) (by simp [MAX_RETRIES])]; simp)
    | none =>
      cases hn3 : net 3 with
      | some r3 =>
        have e : get_with_retries net = (some r3, [3, 6], 3) := by
          simp [get_with_retries, MAX_RETRIES, RETRY_BACKOFF_SECONDS,
            request_with_retries_from_unfold, hn1, hn2, hn3]
        refine ⟨by rw [e]; simp [MAX_RETRIES], ?_, ?_, ?_, rfl⟩
        · constructor
          · intro h; rw [e] at h; exact absurd h (by simp)
          · intro h; exact absurd hn3 (by rw [h 3 (by omega) (by simp [MAX_RETRIES])]; simp)
        · intro a r ha1 ha3 hb hnet
          have haeq : a = 1 ∨ a = 2 ∨ a = 3 := by
            simp only [MAX_RETRIES] at ha3; omega
          rcases haeq with rfl | rfl | rfl
          · rw [hn1] at hnet; exact absurd hnet (by simp)
          · rw [hn2] at hnet; exact absurd hnet (by simp)
          · rw [hn3] at hnet
            rw [e]
            refine ⟨by rw [hnet], rfl, ?_⟩
            simp [List.range_succ, RETRY_BACKOFF_SECONDS]
        · intro h
          exact absurd hn3 (by rw [h 3 (by omega) (by simp [MAX_RETRIES])]; simp)
      | none =>
        have e : get_with_retries net = (none, [3, 6], 3) := by
          simp [get_with_retries, MAX_RETRIES, RETRY_BACKOFF_SECONDS,
            request_with_retries_from_unfold, hn1, hn2, hn3]
        refine ⟨by rw [e]; simp [MAX_RETRIES], ?_, ?_, ?_, rfl⟩
        · constructor
          · intro _ a ha1 ha3
            simp only [MAX_RETRIES] at ha3
            have haeq : a = 1 ∨ a = 2 ∨ a = 3 := by omega
            rcases haeq with rfl | rfl | rfl <;> assumption
          · intro _; rw [e]
        · intro a r ha1 ha3 hb hnet
          have haeq : a = 1 ∨ a = 2 ∨ a = 3 := by
            simp only [MAX_RETRIES] at ha3; omega
          rcases haeq with rfl | rfl | rfl
          · rw [hn1] at hnet; exact absurd hnet (by simp)
          · rw [hn2] at hnet; exact absurd hnet (by simp)
          · rw [hn3] at hnet; exact absurd hnet (by simp)
        · intro _
          rw [e]
          simp [MAX_RETRIES, List.range_succ, RETRY_BACKOFF_SECONDS]

def net_c4 : Nat → Option HttpResponse :=
  fun a => if a = 3 then some ⟨500, "server error"⟩ else none

/-- Witness for C4: two transport failures followed by a received HTTP 500
response give exactly three attempts, sleeps of 3s and 6s, and the 500
response returned as-is (no retry on the error status). -/
theorem retry_primitives_spec_witness :
    (get_with_retries net_c4).1 = some ⟨500, "server error"⟩
    ∧ (get_with_retries net_c4).2.2 = 3
    ∧ (get_with_retries net_c4).2.1 = [3, 6] := by
  have h := (retry_primitives_spec net_c4).2.2.1 3 ⟨500, "server error"⟩
    (by decide) (by decide)
    (by intro b hb1 hb3
        have hb : b = 1 ∨ b = 2 := by omega
        rcases hb with rfl | rfl <;> decide)
    (by decide)
  exact ⟨h.1, h.2.1, by rw [h.2.2]; decide⟩

/-! ## Paginated projects fetch (monitor_agent.py lines 414-480,
main.py lines 370-444)

The outcome of fetching one page is abstracted: PageResult.fail covers
every way the page can be lost (get_with_retries returning None after
retry exhaustion, raise_for_status on an HTTP error status, a JSON decode
error, or a non-dict "projects" payload) — each of these breaks the
pagination loop.  PageResult.ok carries the optional "total" and "rows"
payload fields (int(payload.get("total", 0)) and
int(payload.get("rows", rows_per_page))) and the page's project records in
order.  The request parameter dicts actually sent are recorded in a trace;
monitor_agent builds them with a countrycode_exact entry
(lines 424-431) while main.py builds them without any country entry
(lines 382-387). -/

inductive PageResult where
  | fail
  | ok (total : Option Nat) (rows : Option Nat) (projects : List Project)
  deriving DecidableEq

def page_records : PageResult → List Project
  | .fail => []
  | .ok _ _ projects => projects

/-- Client-side region check shared by both fetchers: the record is kept
exactly when project.get("countrycode") is a list containing "NG"
(a missing, falsy or non-list value is excluded). -/
def client_ng (p : Project) : Bool :=
  match p.countrycode with
  | .codes cs => cs.contains NIGERIA_COUNTRY_CODE
  | _ => false

def agent_projects_params (rows_per_page page : Nat) : List (String × String) :=
  [("format", "json"), ("status", "Active"),
   ("countrycode_exact", NIGERIA_COUNTRY_CODE),
   ("rows", toString rows_per_page), ("page", toString page)]

def main_projects_params (rows_per_page page : Nat) : List (String × String) :=
  [("format", "json"), ("status", "Active"),
   ("rows", toString rows_per_page), ("page", toString page)]

/-- The shared pagination loop of both fetchers, bounded by fuel (the
Python while-loop has no bound; every claim below concerns runs that stop
within the supplied fuel).  Returns the accumulated client-filtered
records together with the trace of request parameter dicts sent. -/
def fetch_pages_aux (net : Nat → PageResult)
    (params_of : Nat → List (String × String)) (rows_per_page : Nat) :
    Nat → Nat → List Project → List (List (String × String)) →
      List Project × List (List (String × String))
  | 0, _, acc, trace => (acc, trace)
  | fuel + 1, page, acc, trace =>
    let trace2 := trace ++ [params_of page]
    match net page with
    | .fail => (acc, trace2)
    | .ok total rows projects =>
      let total_n := total.getD 0
      let rows_n := rows.getD rows_per_page
      let acc2 := acc ++ projects.filter client_ng
      if page * rows_n ≥ total_n ∨ projects = [] then (acc2, trace2)
      else fetch_pages_aux net params_of rows_per_page fuel (page + 1) acc2 trace2

def fetch_projects_for_nigeria (net : Nat → PageResult) (fuel : Nat) :
    List Project × List (List (String × String)) :=
  fetch_pages_aux net (agent_projects_params 50) 50 fuel 1 [] []

def fetch_active_projects_for_nigeria (net : Nat → PageResult) (fuel : Nat) :
    List Project × List (List (String × String)) :=
  fetch_pages_aux net (main_projects_params 50) 50 fuel 1 [] []

/-- The loop continues past a page exactly when the page was fetched, the
pagination threshold has not been reached and the page is non-empty. -/
def page_continues (rows_per_page page : Nat) : PageResult → Bool
  | .fail => false
  | .ok total rows projects =>
    decide (page * rows.getD rows_per_page < total.getD 0) && !projects.isEmpty

theorem fetch_pages_aux_succ (net : Nat → PageResult)
    (params_of : Nat → List (String × String)) (rpp fuel page : Nat)
    (acc : List Project) (trace : List (List (String × String))) :
    fetch_pages_aux net params_of rpp (fuel + 1) page acc trace =
      match net page with
      | .fail => (acc, trace ++ [params_of page])
      | .ok total rows projects =>
        if page * rows.getD rpp ≥ total.getD 0 ∨ projects = [] then
          (acc ++ projects.filter client_ng, trace ++ [params_of page])
        else
          fetch_pages_aux net params_of rpp fuel (page + 1)
            (acc ++ projects.filter client_ng) (trace ++ [params_of page]) := by
  rfl

/-- Partial-failure behaviour of the pagination loop: when the first k
pages are fetched and continue the loop and page page+k fails, the loop
returns the accumulator extended with the client-filtered records of the k
successful pages. -/
theorem fetch_pages_aux_upto_failure (net : Nat → PageResult)
    (params_of : Nat → List (String × String)) (rpp : Nat) :
    ∀ (k fuel page : Nat) (acc : List Project)
      (trace : List (List (String × String))),
      k ≤ fuel →
      (∀ j, page ≤ j → j < page + k → page_continues rpp j (net j) = true) →
      net (page + k) = .fail →
      (fetch_pages_aux net params_of rpp (fuel + 1) page acc trace).1
        = acc ++ ((List.range k).map
            (fun i => (page_records (net (page + i))).filter client_ng)).flatten := by
  intro k
  induction k with
  | zero =>
    intro fuel page acc trace _ _ hfail
    rw [Nat.add_zero] at hfail
    rw [fetch_pages_aux_succ, hfail]
    simp
  | succ k ih =>
    intro fuel page acc trace hfuel hcont hfail
    have hpage := hcont page (Nat.le_refl page) (by omega)
    cases hnet : net page with
    | fail => rw [hnet] at hpage; simp [page_continues] at hpage
    | ok total rows projects =>
      rw [hnet] at hpage
      simp only [page_continues, Bool.and_eq_true, decide_eq_true_eq] at hpage
      obtain ⟨hlt, hne1⟩ := hpage
      have hne : projects ≠ [] := by
        intro hc; rw [hc] at hne1; simp at hne1
      obtain ⟨f, rfl⟩ : ∃ f, fuel = f + 1 := ⟨fuel - 1, by omega⟩
      have hcont2 : ∀ j, page + 1 ≤ j → j < page + 1 + k →
          page_continues rpp j (net j) = true :=
        fun j h1 h2 => hcont j (by omega) (by omega)
      have hfail2 : net (page + 1 + k) = .fail := by
        have harith : page + 1 + k = page + (k + 1) := by omega
        rw [harith]; exact hfail
      rw [fetch_pages_aux_succ, hnet]
      simp only
      rw [if_neg (by push_neg; exact ⟨by omega, hne⟩)]
      rw [ih f (page + 1) (acc ++ projects.filter client_ng)
        (trace ++ [params_of page]) (by omega) hcont2 hfail2]
      rw [List.range_succ_eq_map]
      simp only [List.map_cons, List.flatten_cons, List.map_map, Nat.add_zero, hnet,
        page_records]
      rw [List.append_assoc]
      congr 2
      congr 1
      refine List.map_congr_left ?_
      intro i _
      simp only [Function.comp_apply, Nat.succ_eq_add_one]
      have harith : page + (i + 1) = page + 1 + i := by omega
      rw [harith]

/-- C5: for a paginated fetch of the projects stream, if the first k pages
succeed (and continue the loop) and page k+1 fails — retry exhaustion,
HTTP error status or malformed body are all modelled by PageResult.fail —
both adapters return the client-filtered records accumulated from the k
successful pages rather than an empty sequence; and when the first page
fails entirely they return the empty sequence. -/
theorem pagination_partial_failure_spec (net : Nat → PageResult) (k fuel : Nat)
    (hfuel : k < fuel)
    (hok : ∀ j, 1 ≤ j → j ≤ k → page_continues 50 j (net j) = true)
    (hfail : net (k + 1) = .fail) :
    ((fetch_projects_for_nigeria net fuel).1
        = ((List.range k).map
            (fun i => (page_records (net (i + 1))).filter client_ng)).flatten
      ∧ (fetch_active_projects_for_nigeria net fuel).1
          = ((List.range k).map
              (fun i => (page_records (net (i + 1))).filter client_ng)).flatten)
  ∧ (net 1 = .fail → ∀ fuel2, 1 ≤ fuel2 →
      (fetch_projects_for_nigeria net fuel2).1 = []
      ∧ (fetch_active_projects_for_nigeria net fuel2).1 = []) := by
  have hok2 : ∀ j, 1 ≤ j → j < 1 + k → page_continues 50 j (net j) = true :=
    fun j h1 h2 => hok j h1 (by omega)
  have hfail2 : net (1 + k) = .fail := by
    have harith : 1 + k = k + 1 := by omega
    rw [harith]; exact hfail
  obtain ⟨f, rfl⟩ : ∃ f, fuel = f + 1 := ⟨fuel - 1, by omega⟩
  have hshift :
      ((List.range k).map (fun i => (page_records (net (1 + i))).filter client_ng))
        = ((List.range k).map (fun i => (page_records (net (i + 1))).filter client_ng)) := by
    refine List.map_congr_left ?_
    intro i _
    have harith : 1 + i = i + 1 := by omega
    rw [harith]
  constructor
  · constructor
    · rw [fetch_projects_for_nigeria,
        fetch_pages_aux_upto_failure net (agent_projects_params 50) 50 k f 1 [] []
          (by omega) hok2 hfail2, hshift]
      simp
    · rw [fetch_active_projects_for_nigeria,
        fetch_pages_aux_upto_failure net (main_projects_params 50) 50 k f 1 [] []
          (by omega) hok2 hfail2, hshift]
      simp
  · intro h1 fuel2 hfuel2
    obtain ⟨f2, rfl⟩ : ∃ f2, fuel2 = f2 + 1 := ⟨fuel2 - 1, by omega⟩
    constructor
    · rw [fetch_projects_for_nigeria,
        fetch_pages_aux_upto_failure net (agent_projects_params 50) 50 0 f2 1 [] []
          (by omega) (by intro j hj1 hj2; omega) (by rw [Nat.add_zero]; exact h1)]
      simp
    · rw [fetch_active_projects_for_nigeria,
        fetch_pages_aux_upto_failure net (main_projects_params 50) 50 0 f2 1 [] []
          (by omega) (by intro j hj1 hj2; omega) (by rw [Nat.add_zero]; exact h1)]
      simp

def proj_c5 : Project := ⟨"P0500", "2024-02-02", CCVal.codes ["NG"]⟩

def net_c5 : Nat → PageResult :=
  fun page => if page = 1 then PageResult.ok (some 120) (some 50) [proj_c5]
    else PageResult.fail

/-- Witness for C5: page 1 succeeds with one Nigeria record out of a
claimed total of 120 and page 2 fails; the adapters return that record. -/
theorem pagination_partial_failure_spec_witness :
    (fetch_projects_for_nigeria net_c5 2).1 = [proj_c5]
    ∧ (fetch_active_projects_for_nigeria net_c5 2).1 = [proj_c5] := by
  have h := (pagination_partial_failure_spec net_c5 1 2 (by decide)
    (by intro j hj1 hj2
        have hj : j = 1 := by omega
        subst hj; decide)
    (by decide)).1
  refine ⟨?_, ?_⟩
  · rw [h.1]; decide
  · rw [h.2]; decide

/-- Every request parameter dict in the pagination trace is either carried
over from the starting trace or was built by the page parameter function. -/
theorem fetch_pages_aux_trace (net : Nat → PageResult)
    (params_of : Nat → List (String × String)) (rpp : Nat) :
    ∀ (fuel page : Nat) (acc : List Project)
      (trace : List (List (String × String))),
      ∀ ps ∈ (fetch_pages_aux net params_of rpp fuel page acc trace).2,
        ps ∈ trace ∨ ∃ j, ps = params_of j := by
  intro fuel
  induction fuel with
  | zero => intro page acc trace ps hps; exact Or.inl hps
  | succ f ih =>
    intro page acc trace ps hps
    rw [fetch_pages_aux_succ] at hps
    cases hnet : net page with
    | fail =>
      rw [hnet] at hps
      simp only at hps
      rcases List.mem_append.mp hps with h | h
      · exact Or.inl h
      · exact Or.inr ⟨page, by simpa using h⟩
    | ok total rows projects =>
      rw [hnet] at hps
      simp only at hps
      by_cases hcond : page * rows.getD rpp ≥ total.getD 0 ∨ projects = []
      · rw [if_pos hcond] at hps
        rcases List.mem_append.mp hps with h | h
        · exact Or.inl h
        · exact Or.inr ⟨page, by simpa using h⟩
      · rw [if_neg hcond] at hps
        rcases ih (page + 1) (acc ++ projects.filter client_ng)
            (trace ++ [params_of page]) ps hps with h | h
        · rcases List.mem_append.mp h with h2 | h2
          · exact Or.inl h2
          · exact Or.inr ⟨page, by simpa using h2⟩
        · exact Or.inr h

/-- Every record accumulated by the pagination loop passed the client-side
region check (assuming the starting accumulator did). -/
theorem fetch_pages_aux_client_ng (net : Nat → PageResult)
    (params_of : Nat → List (String × String)) (rpp : Nat) :
    ∀ (fuel page : Nat) (acc : List Project)
      (trace : List (List (String × String))),
      (∀ p ∈ acc, client_ng p = true) →
      ∀ p ∈ (fetch_pages_aux net params_of rpp fuel page acc trace).1,
        client_ng p = true := by
  intro fuel
  induction fuel with
  | zero => intro page acc trace hacc p hp; exact hacc p hp
  | succ f ih =>
    intro page acc trace hacc p hp
    rw [fetch_pages_aux_succ] at hp
    have hacc2 : ∀ q ∈ acc ++ (page_records (net page)).filter client_ng,
        client_ng q = true := by
      intro q hq
      rcases List.mem_append.mp hq with h | h
      · exact hacc q h
      · exact List.of_mem_filter h
    cases hnet : net page with
    | fail =>
      rw [hnet] at hp
      exact hacc p hp
    | ok total rows projects =>
      rw [hnet] at hp
      simp only at hp
      rw [hnet] at hacc2
      simp only [page_records] at hacc2
      by_cases hcond : page * rows.getD rpp ≥ total.getD 0 ∨ projects = []
      · rw [if_pos hcond] at hp
        exact hacc2 p hp
      · rw [if_neg hcond] at hp
        exact ih (page + 1) _ _ hacc2 p hp

def net_c8 : Nat → PageResult := fun _ => PageResult.ok (some 0) (some 50) []

/-- C8 counterexample: main.py's projects fetch sends its page-1 request
with parameter dict format/status/rows/page only — no countrycode_exact
entry and no parameter carrying the region code at all — refuting the
claim that every page request of the projects fetch includes a server-side
region query parameter. -/
theorem main_fetch_region_param_counterexample :
    (fetch_active_projects_for_nigeria net_c8 1).2 = [main_projects_params 50 1]
    ∧ ∀ kv ∈ main_projects_params 50 1,
        kv.1 ≠ "countrycode_exact" ∧ kv.2 ≠ NIGERIA_COUNTRY_CODE := by
  constructor
  · decide
  · decide

/-- C8 (amended): monitor_agent's projects fetch includes the server-side
region parameter countrycode_exact=NG in every page request it sends, and
both fetchers apply the mandatory client-side check, so every returned
record's countrycode field is a list containing "NG" (records with a
missing or non-list countrycode are excluded); main.py's projects fetch
applies only the client-side check. -/
theorem region_filtering_spec (net : Nat → PageResult) (fuel : Nat) :
    (∀ ps ∈ (fetch_projects_for_nigeria net fuel).2,
        ("countrycode_exact", NIGERIA_COUNTRY_CODE) ∈ ps)
  ∧ (∀ p ∈ (fetch_projects_for_nigeria net fuel).1,
        ∃ cs, p.countrycode = CCVal.codes cs ∧ NIGERIA_COUNTRY_CODE ∈ cs)
  ∧ (∀ p ∈ (fetch_active_projects_for_nigeria net fuel).1,
        ∃ cs, p.countrycode = CCVal.codes cs ∧ NIGERIA_COUNTRY_CODE ∈ cs) := by
  have hng : ∀ p : Project, client_ng p = true →
      ∃ cs, p.countrycode = CCVal.codes cs ∧ NIGERIA_COUNTRY_CODE ∈ cs := by
    intro p hp
    cases hcc : p.countrycode with
    | missing => rw [client_ng, hcc] at hp; simp at hp
    | nonList => rw [client_ng, hcc] at hp; simp at hp
    | codes cs =>
      rw [client_ng, hcc] at hp
      exact ⟨cs, rfl, by simpa using hp⟩
  refine ⟨?_, ?_, ?_⟩
  · intro ps hps
    rcases fetch_pages_aux_trace net (agent_projects_params 50) 50 fuel 1 [] []
        ps hps with h | ⟨j, rfl⟩
    · simp at h
    · simp [agent_projects_params]
  · intro p hp
    exact hng p (fetch_pages_aux_client_ng net (agent_projects_params 50) 50 fuel 1
      [] [] (by intro q hq; simp at hq) p hp)
  · intro p hp
    exact hng p (fetch_pages_aux_client_ng net (main_projects_params 50) 50 fuel 1
      [] [] (by intro q hq; simp at hq) p hp)

def proj_c8w : Project := ⟨"P0801", "", CCVal.codes ["NG"]⟩

def net_c8w : Nat → PageResult := fun _ => PageResult.ok (some 1) (some 50) [proj_c8w]

/-- Witness for the amended C8 at a concrete network: the single page-1
request carries countrycode_exact=NG and the returned record's countrycode
list contains "NG". -/
theorem region_filtering_spec_witness :
    ("countrycode_exact", NIGERIA_COUNTRY_CODE) ∈ agent_projects_params 50 1
    ∧ ∃ cs, proj_c8w.countrycode = CCVal.codes cs ∧ NIGERIA_COUNTRY_CODE ∈ cs := by
  constructor
  · exact (region_filtering_spec net_c8w 1).1 (agent_projects_params 50 1) (by decide)
  · exact (region_filtering_spec net_c8w 1).2.1 proj_c8w (by decide)

/-! ## Persisted state loading (monitor_agent.py lines 362-384,
main.py lines 326-350)

A parsed JSON document is modelled by Json (numbers restricted to
integers, which covers the persisted state files).  _load_state_map models
both monitor_agent._load_state_map and main.load_processed_projects, which
are line-for-line identical: a missing file, an OSError while reading, or
a json.JSONDecodeError all yield the empty dict; a JSON object yields
str(k) -> str(v) (object keys are already strings); a JSON array — the
legacy format — yields str(item) -> ""; any other document yields the
empty dict. -/

inductive Json where
  | null
  | bool (b : Bool)
  | num (n : Int)
  | str (s : String)
  | arr (elems : List Json)
  | obj (entries : List (String × Json))

/-- Single-quote character, written via its code point. -/
def squote : String := String.singleton (Char.ofNat 39)

mutual

/-- Python repr() of a parsed-JSON value (scalars exact; containers
rendered recursively, string escaping not modelled — the persisted state
files hold plain scalars and flat containers). -/
def pyRepr : Json → String
  | .null => "None"
  | .bool true => "True"
  | .bool false => "False"
  | .num n => toString n
  | .str s => squote ++ s ++ squote
  | .arr elems => "[" ++ pyReprList elems ++ "]"
  | .obj entries => "\x7b" ++ pyReprEntries entries ++ "\x7d"

def pyReprList : List Json → String
  | [] => ""
  | [x] => pyRepr x
  | x :: rest => pyRepr x ++ ", " ++ pyReprList rest

def pyReprEntries : List (String × Json) → String
  | [] => ""
  | [kv] => squote ++ kv.1 ++ squote ++ ": " ++ pyRepr kv.2
  | kv :: rest => squote ++ kv.1 ++ squote ++ ": " ++ pyRepr kv.2 ++ ", " ++ pyReprEntries rest

end

/-- Python str() of a parsed-JSON value: the identity on strings, repr()
on everything else. -/
def pyStr : Json → String
  | .str s => s
  | j => pyRepr j

/-- The possible conditions of a persisted state file when the loader runs. -/
inductive FileState where
  | missing
  | readError
  | parseError
  | content (j : Json)

def _load_state_map : FileState → StateMap
  | .missing => []
  | .readError => []
  | .parseError => []
  | .content j =>
    match j with
    | .obj entries => entries.foldl (fun d kv => dictInsert d kv.1 (pyStr kv.2)) []
    | .arr elems => elems.foldl (fun d x => dictInsert d (pyStr x) "") []
    | _ => []

theorem dictGet_foldl_insert_empty (xs : List String) :
    ∀ (d : StateMap) (k : String),
      dictGet (xs.foldl (fun d x => dictInsert d x "") d) k
        = if k ∈ xs then some "" else dictGet d k := by
  induction xs with
  | nil => intro d k; simp
  | cons x rest ih =>
    intro d k
    rw [List.foldl_cons, ih]
    by_cases hk : k ∈ rest
    · simp [hk]
    · by_cases hkx : k = x
      · subst hkx
        simp [hk, dictGet_dictInsert_self]
      · simp [hk, hkx, dictGet_dictInsert_ne d x "" k hkx]

/-- C7: loading a persisted state file whose JSON content is a bare array
of string ids yields the mapping sending each id to the empty-string
marker, in particular [A, B] loads as (A -> "", B -> ""); loading a
missing, unreadable or unparsable file yields the empty mapping rather
than failing. -/
theorem load_state_map_spec :
    (∀ (ids : List String) (k : String),
        dictGet (_load_state_map (.content (.arr (ids.map Json.str)))) k
          = if k ∈ ids then some "" else none)
  ∧ _load_state_map (.content (.arr [.str "A", .str "B"])) = [("A", ""), ("B", "")]
  ∧ _load_state_map .missing = []
  ∧ _load_state_map .readError = []
  ∧ _load_state_map .parseError = [] := by
  refine ⟨?_, by decide, rfl, rfl, rfl⟩
  intro ids k
  show dictGet ((ids.map Json.str).foldl (fun d x => dictInsert d (pyStr x) "") []) k
    = if k ∈ ids then some "" else none
  rw [List.foldl_map]
  have hfold :
      (ids.foldl (fun d x => dictInsert d (pyStr (Json.str x)) "") [])
        = (ids.foldl (fun d x => dictInsert d x "") []) := rfl
  rw [hfold, dictGet_foldl_insert_empty ids [] k]
  rfl

/-- Witness for C7: the legacy array [A, B] loads with both ids mapped to
the empty marker and other ids absent. -/
theorem load_state_map_spec_witness :
    dictGet (_load_state_map (.content (.arr ([ "A", "B"].map Json.str)))) "A"
      = some ""
    ∧ dictGet (_load_state_map (.content (.arr (["A", "B"].map Json.str)))) "C"
      = none := by
  constructor
  · rw [load_state_map_spec.1 ["A", "B"] "A"]; decide
  · rw [load_state_map_spec.1 ["A", "B"] "C"]; decide

/-! ## Orchestrated run and weekly heartbeat
(monitor_agent.py lines 1375-1619, main.py lines 727-833)

run_monitor models one invocation of monitor_agent.run_monitor restricted
to the parts the claims concern: the projects stream and the procurement
plan documents stream each run the diff-and-notify loop over their
keyword-matching records against their own state map (the tenders and
awards streams are disabled by the ENABLE_TENDERS_STREAM and
ENABLE_AWARDS_STREAM flags, both False, so their loops never run), the
updated stream states are persisted, and then the weekly heartbeat block
runs: with today's ISO date string and weekday number taken once from
date.today(), the heartbeat is attempted only when the weekday is Monday
(0) and monitor_state.get("last_heartbeat_date", "") differs from today;
the date is committed into the monitor state — and the monitor state is
persisted at all — only when send_discord_heartbeat reports success. -/

def ENABLE_TENDERS_STREAM : Bool := false

def ENABLE_AWARDS_STREAM : Bool := false

structure RunResult where
  projects_state : StateMap
  docs_state : StateMap
  monitor_state : StateMap
  project_alerts : Nat
  document_alerts : Nat
  heartbeat_attempted : Bool
  heartbeat_sent : Bool
  monitor_state_saved : Bool

def run_monitor (send_project send_doc : Project → Bool → Bool)
    (send_heartbeat : Bool) (weekday : Nat) (today : String)
    (projects_state docs_state monitor_state : StateMap)
    (matching_projects matching_docs : List Project) : RunResult :=
  let ps := run_stream send_project projects_state matching_projects
  let ds := run_stream send_doc docs_state matching_docs
  let last_heartbeat := (dictGet monitor_state "last_heartbeat_date").getD ""
  if weekday = 0 ∧ last_heartbeat ≠ today then
    if send_heartbeat then
      { projects_state := ps.1, docs_state := ds.1,
        monitor_state := dictInsert monitor_state "last_heartbeat_date" today,
        project_alerts := ps.2, document_alerts := ds.2,
        heartbeat_attempted := true, heartbeat_sent := true,
        monitor_state_saved := true }
    else
      { projects_state := ps.1, docs_state := ds.1,
        monitor_state := monitor_state,
        project_alerts := ps.2, document_alerts := ds.2,
        heartbeat_attempted := true, heartbeat_sent := false,
        monitor_state_saved := false }
  else
    { projects_state := ps.1, docs_state := ds.1,
      monitor_state := monitor_state,
      project_alerts := ps.2, document_alerts := ds.2,
      heartbeat_attempted := false, heartbeat_sent := false,
      monitor_state_saved := false }

/-- C9: in every run the heartbeat is attempted at most once, and exactly
when today's weekday is the designated day (Monday, weekday 0) and the
persisted last_heartbeat_date differs from today's (non-empty) ISO date;
today's date is committed into the monitor state and the monitor state
persisted exactly when the heartbeat send succeeds, and on heartbeat
failure (or no attempt) the monitor state is unchanged and not saved. -/
theorem heartbeat_spec (send_project send_doc : Project → Bool → Bool)
    (send_heartbeat : Bool) (weekday : Nat) (today : String)
    (projects_state docs_state monitor_state : StateMap)
    (matching_projects matching_docs : List Project)
    (htoday : today ≠ "") :
    let res := run_monitor send_project send_doc send_heartbeat weekday today
      projects_state docs_state monitor_state matching_projects matching_docs
    ((if res.heartbeat_attempted then 1 else 0) ≤ 1)
  ∧ (res.heartbeat_attempted = true
      ↔ weekday = 0 ∧ dictGet monitor_state "last_heartbeat_date" ≠ some today)
  ∧ (res.heartbeat_sent = true
      ↔ res.heartbeat_attempted = true ∧ send_heartbeat = true)
  ∧ (res.heartbeat_sent = true →
      res.monitor_state = dictInsert monitor_state "last_heartbeat_date" today
      ∧ dictGet res.monitor_state "last_heartbeat_date" = some today
      ∧ res.monitor_state_saved = true)
  ∧ (res.heartbeat_sent = false →
      res.monitor_state = monitor_state ∧ res.monitor_state_saved = false) := by
  intro res
  have hcond : ((dictGet monitor_state "last_heartbeat_date").getD "" ≠ today)
      ↔ dictGet monitor_state "last_heartbeat_date" ≠ some today := by
    cases hg : dictGet monitor_state "last_heartbeat_date" with
    | none => simp [Ne.symm htoday]
    | some v => simp
  by_cases hw : weekday = 0 ∧ (dictGet monitor_state "last_heartbeat_date").getD "" ≠ today
  · cases hsend : send_heartbeat with
    | true =>
      have hres : res = ⟨(run_stream send_project projects_state matching_projects).1,
          (run_stream send_doc docs_state matching_docs).1,
          dictInsert monitor_state "last_heartbeat_date" today,
          (run_stream send_project projects_state matching_projects).2,
          (run_stream send_doc docs_state matching_docs).2,
          true, true, true⟩ := by
        simp only [res, run_monitor, hsend, if_pos hw, if_true]
      rw [hres]
      refine ⟨by simp, by simpa using ⟨hw.1, hcond.mp hw.2⟩, by simp, ?_, by simp⟩
      intro _
      exact ⟨rfl, dictGet_dictInsert_self monitor_state "last_heartbeat_date" today, rfl⟩
    | false =>
      have hres : res = ⟨(run_stream send_project projects_state matching_projects).1,
          (run_stream send_doc docs_state matching_docs).1,
          monitor_state,
          (run_stream send_project projects_state matching_projects).2,
          (run_stream send_doc docs_state matching_docs).2,
          true, false, false⟩ := by
        simp only [res, run_monitor, hsend, if_pos hw, if_false, Bool.false_eq_true]
      rw [hres]
      refine ⟨by simp, by simpa using ⟨hw.1, hcond.mp hw.2⟩, by simp, by simp, by simp⟩
  · have hres : res = ⟨(run_stream send_project projects_state matching_projects).1,
        (run_stream send_doc docs_state matching_docs).1,
        monitor_state,
        (run_stream send_project projects_state matching_projects).2,
        (run_stream send_doc docs_state matching_docs).2,
        false, false, false⟩ := by
      simp only [res, run_monitor, if_neg hw]
    rw [hres]
    refine ⟨by simp, ?_, by simp, by simp, by simp⟩
    simp only [Bool.false_eq_true, false_iff]
    intro hc
    exact hw ⟨hc.1, hcond.mpr hc.2⟩

/-- Witness for C9: on a Monday with no previously persisted heartbeat
date and a succeeding send, the heartbeat is attempted and today's date is
committed; with an equal persisted date, no attempt is made. -/
theorem heartbeat_spec_witness :
    ((run_monitor (fun _ _ => true) (fun _ _ => true) true 0 "2026-10-12"
        [] [] [] [] []).heartbeat_attempted = true
      ∧ dictGet (run_monitor (fun _ _ => true) (fun _ _ => true) true 0 "2026-10-12"
          [] [] [] [] []).monitor_state "last_heartbeat_date" = some "2026-10-12")
    ∧ (run_monitor (fun _ _ => true) (fun _ _ => true) true 0 "2026-10-12"
        [] [] [("last_heartbeat_date", "2026-10-12")] [] []).heartbeat_attempted
        = false := by
  have h1 := heartbeat_spec (fun _ _ => true) (fun _ _ => true) true 0 "2026-10-12"
    [] [] [] [] [] (by decide)
  have h2 := heartbeat_spec (fun _ _ => true) (fun _ _ => true) true 0 "2026-10-12"
    [] [] [("last_heartbeat_date", "2026-10-12")] [] [] (by decide)
  have hatt := h1.2.1.mpr ⟨rfl, by decide⟩
  have hsent := h1.2.2.1.mpr ⟨hatt, rfl⟩
  refine ⟨⟨hatt, (h1.2.2.2.1 hsent).2.1⟩, ?_⟩
  have hnot : ¬ ((run_monitor (fun _ _ => true) (fun _ _ => true) true 0 "2026-10-12"
      [] [] [("last_heartbeat_date", "2026-10-12")] [] []).heartbeat_attempted = true) := by
    rw [h2.2.1]
    intro hcon
    exact hcon.2 (by decide)
  exact Bool.eq_false_iff.mpr hnot
